import Mathlib

/-!
Shallow embedding of the CRUD drivers of `windows_web_app_resource.go`
(`WindowsWebAppResource.Create/Read/Update/Delete`) and of the Linux Web App
data source (`LinuxWebAppDataSource.Read`, `src/unnamed/part_000`) from the
`terraform-provider-azurerm` fragment.

Remote API calls, the plugin host, and the expand/flatten helper package
(`internal/services/appservice/helpers`, not under `src/` and declared out of
scope by the spec, section 6) are modelled as oracle inputs: each driver is a
pure function of the decoded configuration model together with an environment
record holding the outcome every external call would return.  The driver
produces the ordered list of calls it issues (its trace) and an outcome.
-/

deriving instance DecidableEq for Except

namespace AzureRM

/-- Result of a remote `Get`-style call as discriminated by
`utils.ResponseWasNotFound`: success with a payload, an error whose response
was a 404, or any other error. -/
inductive GetResult (α : Type) where
  | ok (v : α)
  | notFound
  | failed
  deriving DecidableEq, Repr

/-- The remote / host calls a driver can issue, in the order they appear in its
trace.  Warning-log emissions are recorded as calls so that "logged as a
warning" is expressible. -/
inductive Call where
  | getSite
  | getServicePlan
  | getAse
  | warnAseRead
  | checkNameAvailability (name : String) (isFqdn : Bool)
  | createOrUpdate
  | updateMetadata
  | setResourceId
  | updateApplicationSettings
  | updateAuthSettings
  | updateDiagnosticLogsConfig
  | updateBackupConfiguration
  | deleteBackupConfiguration
  | updateAzureStorageAccounts
  | updateConnectionStrings
  | getConfiguration
  | getAuthSettings
  | getBackupConfiguration
  | getDiagnosticLogs
  | listApplicationSettings
  | listAzureStorageAccounts
  | listConnectionStrings
  | listPublishingCredentials
  | waitPublishingCredentials
  | resultPublishingCredentials
  | listMetadata
  | infoDeleting
  | deleteSite (deleteMetrics : Bool) (deleteEmptyServerFarm : Bool)
  deriving DecidableEq, Repr

/-- The distinct error-wrapping sites of the drivers: each `fmt.Errorf` return
in the source is modelled by its own kind, so "fails with a wrapped error" is
expressible as `.err k` for the kind of that site. -/
inductive ErrKind where
  | decodeErr
  | presence
  | planIdParse
  | planRead
  | checkNameCall
  | nameUnavailable
  | expandSiteConfigErr
  | createCall
  | createWait
  | metadataCall
  | setAppSettings
  | setAuth
  | setLogs
  | setBackup
  | setStorage
  | setConnStr
  | readIdParse
  | readSite
  | nilProps
  | readConfig
  | readAuth
  | readBackup
  | readLogs
  | readAppSettings
  | readStorage
  | readConnStr
  | credsList
  | credsWait
  | credsRes
  | readMetadata
  | deleteIdParse
  | deleteCall
  | updIdParse
  | updDecode
  | updExpandSiteConfig
  | updPrimary
  | updWait
  | updMetadata
  | updAppSettings
  | updConnStr
  | updAuth
  | updBackupDelete
  | updBackupUpdate
  | updLogs
  | updStorage
  | dsNotFound
  | dsReadSite
  deriving DecidableEq, Repr

/-- Outcome of a driver invocation.  `gone` models `metadata.MarkAsGone` (state
removal, nil error); `requiresImport` models `metadata.ResourceRequiresImport`;
`panics` models a nil-pointer dereference in the Go source. -/
inductive Outcome where
  | ok
  | gone
  | requiresImport
  | err (e : ErrKind)
  | panics
  deriving DecidableEq, Repr

/-- The `web.SiteProperties` fields the two Read drivers consume, pointers
modelled as `Option`. -/
structure SiteProps where
  serverFarmID : Option String
  clientAffinityEnabled : Option Bool
  clientCertEnabled : Option Bool
  clientCertMode : String
  enabled : Option Bool
  httpsOnly : Option Bool
  customDomainVerificationID : Option String
  defaultHostName : Option String
  outboundIPAddresses : Option String
  possibleOutboundIPAddresses : Option String
  deriving DecidableEq, Repr

/-- The `web.Site` response of the primary `Get`. -/
structure Site where
  kind : Option String
  location : Option String
  props : Option SiteProps
  deriving DecidableEq, Repr

/-- The `web.StringDictionary` returned by `ListMetadata`, modelled as an
association list; dictionary values are modelled as always non-nil strings. -/
structure MetadataResp where
  props : List (String × String)
  deriving DecidableEq, Repr

/-- Modelled from the spec: `utils.NormalizeNilableString` (utils package, not
under `src/`) returns the pointed-to string, or `""` for a nil pointer. -/
def normalizeNilableString : Option String → String
  | some s => s
  | none => ""

/-- Modelled from the spec: `location.NormalizeNilable` (location package, not
under `src/`) normalizes an Azure location name (case/space insensitive), or
returns `""` for nil; the exact normalization is irrelevant to the claims. -/
def locationNormalizeNilable : Option String → String
  | some s => (s.replace " " "").toLower
  | none => ""

/-- The parse result of `parse.WebAppID` / `parse.NewWebAppID`. -/
structure WebAppId where
  subscriptionId : String
  resourceGroup : String
  siteName : String
  deriving DecidableEq, Repr

/-- Result record of a Read-style driver: the trace of issued calls, the
outcome, and the merged state when the read succeeded. -/
structure ReadResult (σ : Type) where
  calls : List Call
  out : Outcome
  state : Option σ
  deriving DecidableEq, Repr

/-- One fatal auxiliary-read step of a Read driver: on error the step aborts
the whole read with its wrapped error kind, otherwise it records its call and
continues with `rest`. -/
def rstep {σ : Type} (r : Except Unit Unit) (c : Call) (e : ErrKind)
    (rest : ReadResult σ) : ReadResult σ :=
  match r with
  | .error _ => ⟨[c], .err e, none⟩
  | .ok _ => ⟨c :: rest.calls, rest.out, rest.state⟩

/-- The backup-configuration read step: a NotFound error is tolerated and the
read continues (lines 391-396 / 188-193); only a non-404 error is fatal. -/
def bstep {σ : Type} (r : GetResult Unit) (c : Call) (e : ErrKind)
    (rest : ReadResult σ) : ReadResult σ :=
  match r with
  | .failed => ⟨[c], .err e, none⟩
  | _ => ⟨c :: rest.calls, rest.out, rest.state⟩

/-- Oracle environment for `WindowsWebAppResource.Read` (lines 359-529). -/
structure ReadEnv where
  idParse : Option WebAppId
  getSite : GetResult Site
  getConfiguration : Except Unit Unit
  getAuthSettings : Except Unit Unit
  getBackup : GetResult Unit
  getLogs : Except Unit Unit
  listAppSettings : Except Unit Unit
  listStorage : Except Unit Unit
  listConnStr : Except Unit Unit
  listCreds : Except Unit Unit
  waitCreds : Except Unit Unit
  credsResult : Except Unit Unit
  listMetadata : Except Unit MetadataResp
  deriving DecidableEq, Repr

/-- The flat state the Windows Read driver merges (lines 436-524); only the
fields assigned inline in the source are modelled — the fields produced by the
out-of-scope flatten helpers are omitted. -/
structure WState where
  name : String
  resourceGroup : String
  location : String := ""
  servicePlanId : String := ""
  clientAffinityEnabled : Bool := false
  clientCertEnabled : Bool := false
  clientCertMode : String := ""
  enabled : Bool := false
  httpsOnly : Bool := false
  customDomainVerificationId : String := ""
  defaultHostname : String := ""
  kind : String := ""
  outboundIPAddresses : String := ""
  outboundIPAddressList : List String := []
  possibleOutboundIPAddresses : String := ""
  possibleOutboundIPAddressList : List String := []
  currentStack : String := ""
  deriving DecidableEq, Repr

/-- State merge of the Windows Read driver (lines 436-524): every pointer field
is dereferenced only under a nil guard. -/
def windowsMerge (wid : WebAppId) (s : Site) (p : SiteProps) (md : MetadataResp) :
    WState :=
  let base : WState := { name := wid.siteName, resourceGroup := wid.resourceGroup,
                         location := locationNormalizeNilable s.location }
  let st := base
  let st := match p.serverFarmID with
    | some v => { st with servicePlanId := v }
    | none => st
  let st := match p.clientAffinityEnabled with
    | some v => { st with clientAffinityEnabled := v }
    | none => st
  let st := match p.clientCertEnabled with
    | some v => { st with clientCertEnabled := v }
    | none => st
  let st := if p.clientCertMode ≠ "" then { st with clientCertMode := p.clientCertMode } else st
  let st := match p.enabled with
    | some v => { st with enabled := v }
    | none => st
  let st := match p.httpsOnly with
    | some v => { st with httpsOnly := v }
    | none => st
  let st := match p.customDomainVerificationID with
    | some v => { st with customDomainVerificationId := v }
    | none => st
  let st := match p.defaultHostName with
    | some v => { st with defaultHostname := v }
    | none => st
  let st := match s.kind with
    | some v => { st with kind := v }
    | none => st
  let st := match p.outboundIPAddresses with
    | some v => { st with outboundIPAddresses := v, outboundIPAddressList := v.splitOn "," }
    | none => st
  let st := match p.possibleOutboundIPAddresses with
    | some v => { st with possibleOutboundIPAddresses := v,
                          possibleOutboundIPAddressList := v.splitOn "," }
    | none => st
  let st := match md.props.lookup "CURRENT_STACK" with
    | some v => { st with currentStack := v }
    | none => st
  st

/-- Final auxiliary step of the Windows Read driver: the metadata listing
(lines 431-434) followed by the state merge and `metadata.Encode`. -/
def wTail (wid : WebAppId) (s : Site) (p : SiteProps) (env : ReadEnv) :
    ReadResult WState :=
  match env.listMetadata with
  | .error _ => ⟨[.listMetadata], .err .readMetadata, none⟩
  | .ok md => ⟨[.listMetadata], .ok, some (windowsMerge wid s p md)⟩

/-- The auxiliary-read chain of the Windows Read driver (lines 381-434), in
source order, ending in the metadata listing and state merge. -/
def wAux (wid : WebAppId) (s : Site) (p : SiteProps) (env : ReadEnv) :
    ReadResult WState :=
  rstep env.getConfiguration .getConfiguration .readConfig <|
  rstep env.getAuthSettings .getAuthSettings .readAuth <|
  bstep env.getBackup .getBackupConfiguration .readBackup <|
  rstep env.getLogs .getDiagnosticLogs .readLogs <|
  rstep env.listAppSettings .listApplicationSettings .readAppSettings <|
  rstep env.listStorage .listAzureStorageAccounts .readStorage <|
  rstep env.listConnStr .listConnectionStrings .readConnStr <|
  rstep env.listCreds .listPublishingCredentials .credsList <|
  rstep env.waitCreds .waitPublishingCredentials .credsWait <|
  rstep env.credsResult .resultPublishingCredentials .credsRes <|
  wTail wid s p env

/-- `WindowsWebAppResource.Read` (lines 359-529): primary get with NotFound
mapped to `MarkAsGone`, then the auxiliary reads in source order, backup
tolerating NotFound, everything else fatal. -/
def windowsRead (env : ReadEnv) : ReadResult WState :=
  match env.idParse with
  | none => ⟨[], .err .readIdParse, none⟩
  | some wid =>
    match env.getSite with
    | .notFound => ⟨[.getSite], .gone, none⟩
    | .failed => ⟨[.getSite], .err .readSite, none⟩
    | .ok s =>
      match s.props with
      | none => ⟨[.getSite], .err .nilProps, none⟩
      | some p =>
        ⟨.getSite :: (wAux wid s p env).calls, (wAux wid s p env).out,
         (wAux wid s p env).state⟩

/-- Oracle environment for `LinuxWebAppDataSource.Read`
(`src/unnamed/part_000`, lines 156-268).  The data source lists no metadata. -/
structure LinuxEnv where
  getSite : GetResult Site
  getConfiguration : Except Unit Unit
  getAuthSettings : Except Unit Unit
  getBackup : GetResult Unit
  getLogs : Except Unit Unit
  listAppSettings : Except Unit Unit
  listStorage : Except Unit Unit
  listConnStr : Except Unit Unit
  listCreds : Except Unit Unit
  waitCreds : Except Unit Unit
  credsResult : Except Unit Unit
  deriving DecidableEq, Repr

/-- The flat state of the Linux Web App data source (lines 228-263), restricted
to the fields assigned inline in the source. -/
structure LState where
  clientAffinityEnabled : Bool := false
  clientCertEnabled : Bool := false
  clientCertMode : String := ""
  customDomainVerificationId : String := ""
  defaultHostname : String := ""
  enabled : Bool := false
  httpsOnly : Bool := false
  servicePlanId : String := ""
  outboundIPAddresses : String := ""
  outboundIPAddressList : List String := []
  possibleOutboundIPAddresses : String := ""
  possibleOutboundIPAddressList : List String := []
  kind : String := ""
  location : String := ""
  deriving DecidableEq, Repr

/-- State merge of the Linux data source Read (lines 228-263).  Inside the
`props != nil` block the source dereferences `ClientAffinityEnabled`,
`ClientCertEnabled`, `Enabled` and `HTTPSOnly` with no nil guard (lines
233-239); a nil value there is a nil-pointer dereference, modelled as `none`. -/
def linuxMerge (s : Site) : Option LState :=
  let base : LState := { kind := normalizeNilableString s.kind,
                         location := locationNormalizeNilable s.location }
  match s.props with
  | none => some base
  | some p =>
    match p.clientAffinityEnabled, p.clientCertEnabled, p.enabled, p.httpsOnly with
    | some ca, some cc, some en, some ho =>
      let outbound := normalizeNilableString p.outboundIPAddresses
      let possible := normalizeNilableString p.possibleOutboundIPAddresses
      some { base with
        clientAffinityEnabled := ca
        clientCertEnabled := cc
        clientCertMode := p.clientCertMode
        customDomainVerificationId := normalizeNilableString p.customDomainVerificationID
        defaultHostname := normalizeNilableString p.defaultHostName
        enabled := en
        httpsOnly := ho
        servicePlanId := normalizeNilableString p.serverFarmID
        outboundIPAddresses := outbound
        outboundIPAddressList := outbound.splitOn ","
        possibleOutboundIPAddresses := possible
        possibleOutboundIPAddressList := possible.splitOn "," }
    | _, _, _, _ => none

/-- Final step of the Linux data source Read: the state merge with its
unguarded pointer dereferences. -/
def lTail (s : Site) : ReadResult LState :=
  match linuxMerge s with
  | none => ⟨[], .panics, none⟩
  | some st => ⟨[], .ok, some st⟩

/-- The auxiliary-read chain of the Linux data source Read (lines 178-226). -/
def lAux (s : Site) (env : LinuxEnv) : ReadResult LState :=
  rstep env.getConfiguration .getConfiguration .readConfig <|
  rstep env.getAuthSettings .getAuthSettings .readAuth <|
  bstep env.getBackup .getBackupConfiguration .readBackup <|
  rstep env.getLogs .getDiagnosticLogs .readLogs <|
  rstep env.listAppSettings .listApplicationSettings .readAppSettings <|
  rstep env.listStorage .listAzureStorageAccounts .readStorage <|
  rstep env.listConnStr .listConnectionStrings .readConnStr <|
  rstep env.listCreds .listPublishingCredentials .credsList <|
  rstep env.waitCreds .waitPublishingCredentials .credsWait <|
  rstep env.credsResult .resultPublishingCredentials .credsRes <|
  lTail s

/-- `LinuxWebAppDataSource.Read` (lines 156-268): a NotFound on the primary get
is returned as an error ("Linux Web App with %s not found", line 173), not as
state removal; auxiliary reads follow the same pattern as the resource Read. -/
def linuxRead (env : LinuxEnv) : ReadResult LState :=
  match env.getSite with
  | .notFound => ⟨[.getSite], .err .dsNotFound, none⟩
  | .failed => ⟨[.getSite], .err .dsReadSite, none⟩
  | .ok s =>
    ⟨.getSite :: (lAux s env).calls, (lAux s env).out, (lAux s env).state⟩

/-- Oracle environment for `WindowsWebAppResource.Delete` (lines 531-551). -/
structure DeleteEnv where
  idParse : Option WebAppId
  deleteCall : Except Unit Unit
  deriving DecidableEq, Repr

/-- `WindowsWebAppResource.Delete` (lines 531-551): one delete call with
`deleteMetrics = true` and `deleteEmptyServerFarm = false`, any error returned
wrapped, no retry. -/
def deleteDriver (env : DeleteEnv) : List Call × Outcome :=
  match env.idParse with
  | none => ([], .err .deleteIdParse)
  | some _ =>
    match env.deleteCall with
    | .error _ => ([.infoDeleting, .deleteSite true false], .err .deleteCall)
    | .ok _ => ([.infoDeleting, .deleteSite true false], .ok)

/-- The parse result of `parse.ServicePlanID`. -/
structure ServicePlanId where
  resourceGroup : String
  serverfarmName : String
  deriving DecidableEq, Repr

/-- The `HostingEnvironmentProfile` reference on a service-plan response. -/
structure AseRef where
  id : Option String
  deriving DecidableEq, Repr

/-- The service-plan `Get` response, reduced to the field the Create driver
inspects. -/
structure ServicePlanResp where
  hostingEnvironmentProfile : Option AseRef
  deriving DecidableEq, Repr

/-- The parse result of `parse.AppServiceEnvironmentID`. -/
structure AseId where
  resourceGroup : String
  hostingEnvironmentName : String
  deriving DecidableEq, Repr

/-- The `AppServiceEnvironment` properties of the ASE `Get` response. -/
structure AseProps where
  dnsSuffix : Option String
  deriving DecidableEq, Repr

/-- The ASE `Get` response. -/
structure AseResp where
  appServiceEnvironment : Option AseProps
  deriving DecidableEq, Repr

/-- Results of the six expand helpers consumed by the Create driver's
sub-resource phase.  Modelled from the spec: the helpers live in
`internal/services/appservice/helpers` (not under `src/`); `none` stands for
the nil pointer / nil properties result the source guards on ("only if its
expanded representation is non-empty", spec section 4.1 step 7).  For
`appSettings` the option models the returned pointer itself (guarded at line
309, dereferenced unguarded in Update at line 614); for the others it models
the properties field of the returned value (lines 316, 323, 330, 337, 346). -/
structure Expanded where
  appSettings : Option Unit
  authProps : Option Unit
  logsProps : Option Unit
  backupProps : Option Unit
  storageProps : Option Unit
  connStrProps : Option Unit
  deriving DecidableEq, Repr

/-- Decoded configuration fields of the Create driver that feed the name
availability check. -/
structure CreateInputs where
  name : String
  resourceGroup : String
  deriving DecidableEq, Repr

/-- Oracle environment for `WindowsWebAppResource.Create` (lines 197-357). -/
structure CreateEnv where
  decode : Except Unit Unit
  existing : GetResult Unit
  planIdParse : Option ServicePlanId
  planGet : Except Unit ServicePlanResp
  aseIdParse : Option AseId
  aseGet : Except Unit AseResp
  checkName : Except Unit (Bool × String)
  expandSiteConfig : Except Unit (Option String)
  createOrUpdate : Except Unit Unit
  createWait : Except Unit Unit
  updateMetadata : Except Unit Unit
  exp : Expanded
  updAppSettings : Except Unit Unit
  updAuth : Except Unit Unit
  updLogs : Except Unit Unit
  updBackup : Except Unit Unit
  updStorage : Except Unit Unit
  updConnStr : Except Unit Unit
  deriving DecidableEq, Repr

/-- The availability-request name computation of the Create driver (lines
221-256): trace of extra calls and, when it completes, the request name and
`IsFqdn` flag.  When the plan is on an isolated environment (profile non-nil)
the name is `<name>.<serverfarm>.<suffix>`, `IsFqdn` is true; the suffix
starts as `appserviceenvironment.net`, is rebuilt as
`<environment-name>.appserviceenvironment.net` from the parsed ASE ID (line
242, executed before the parse error is checked — a nil parse result is a nil
dereference, modelled as `none`), and is replaced by the environment's
DNSSuffix when the ASE read yields a non-empty one (lines 246-251); an ASE
read error only logs a warning (line 248). -/
def availabilityName (m : CreateInputs) (pid : ServicePlanId) (plan : ServicePlanResp)
    (env : CreateEnv) : List Call × Option (String × Bool) :=
  match plan.hostingEnvironmentProfile with
  | none => ([], some (m.name, false))
  | some ase =>
    match ase.id with
    | none => ([], some (m.name ++ "." ++ pid.serverfarmName ++ "." ++ "appserviceenvironment.net", true))
    | some _ =>
      match env.aseIdParse with
      | none => ([], none)
      | some aseId =>
        let base := aseId.hostingEnvironmentName ++ "." ++ "appserviceenvironment.net"
        match env.aseGet with
        | .error _ =>
          ([.getAse, .warnAseRead], some (m.name ++ "." ++ pid.serverfarmName ++ "." ++ base, true))
        | .ok resp =>
          match resp.appServiceEnvironment with
          | some props =>
            match props.dnsSuffix with
            | some s =>
              if s = "" then ([.getAse], some (m.name ++ "." ++ pid.serverfarmName ++ "." ++ base, true))
              else ([.getAse], some (m.name ++ "." ++ pid.serverfarmName ++ "." ++ s, true))
            | none => ([.getAse], some (m.name ++ "." ++ pid.serverfarmName ++ "." ++ base, true))
          | none => ([.getAse], some (m.name ++ "." ++ pid.serverfarmName ++ "." ++ base, true))

/-- A guarded sub-resource update step of the Create driver (lines 308-351):
skipped when the expanded representation is empty, fatal on call error,
otherwise records the call and continues. -/
def guardedStep (g : Option Unit) (c : Call) (r : Except Unit Unit) (e : ErrKind)
    (rest : List Call × Outcome) : List Call × Outcome :=
  match g with
  | none => rest
  | some _ =>
    match r with
    | .error _ => ([c], .err e)
    | .ok _ => (c :: rest.1, rest.2)

/-- Create sub-resource phase, stage 6: connection strings (lines 345-350). -/
def cStage6 (env : CreateEnv) : List Call × Outcome :=
  guardedStep env.exp.connStrProps .updateConnectionStrings env.updConnStr .setConnStr ([], .ok)

/-- Create sub-resource phase, stage 5: storage accounts (lines 336-343). -/
def cStage5 (env : CreateEnv) : List Call × Outcome :=
  guardedStep env.exp.storageProps .updateAzureStorageAccounts env.updStorage .setStorage (cStage6 env)

/-- Create sub-resource phase, stage 4: backup (lines 329-334). -/
def cStage4 (env : CreateEnv) : List Call × Outcome :=
  guardedStep env.exp.backupProps .updateBackupConfiguration env.updBackup .setBackup (cStage5 env)

/-- Create sub-resource phase, stage 3: diagnostic logs (lines 322-327). -/
def cStage3 (env : CreateEnv) : List Call × Outcome :=
  guardedStep env.exp.logsProps .updateDiagnosticLogsConfig env.updLogs .setLogs (cStage4 env)

/-- Create sub-resource phase, stage 2: auth settings (lines 315-320). -/
def cStage2 (env : CreateEnv) : List Call × Outcome :=
  guardedStep env.exp.authProps .updateAuthSettings env.updAuth .setAuth (cStage3 env)

/-- Create sub-resource phase (lines 308-351): app settings, auth settings,
logs, backup, storage accounts, connection strings, in source order. -/
def createSubPhase (env : CreateEnv) : List Call × Outcome :=
  guardedStep env.exp.appSettings .updateApplicationSettings env.updAppSettings .setAppSettings (cStage2 env)

/-- Tail of the Create main phase after the availability request is built
(lines 258-306): name availability check, site-config expansion, create call
with wait, and the optional current-stack metadata call. -/
def createRest (env : CreateEnv) : List Call × Outcome :=
  match env.checkName with
  | .error _ => ([], .err .checkNameCall)
  | .ok cn =>
    if cn.1 then
      match env.expandSiteConfig with
      | .error _ => ([], .err .expandSiteConfigErr)
      | .ok stack =>
      match env.createOrUpdate with
      | .error _ => ([.createOrUpdate], .err .createCall)
      | .ok _ =>
      match env.createWait with
      | .error _ => ([.createOrUpdate], .err .createWait)
      | .ok _ =>
        match stack with
        | some s =>
          if s = "" then ([.createOrUpdate, .setResourceId], .ok)
          else
            match env.updateMetadata with
            | .error _ => ([.createOrUpdate, .updateMetadata], .err .metadataCall)
            | .ok _ => ([.createOrUpdate, .updateMetadata, .setResourceId], .ok)
        | none => ([.createOrUpdate, .setResourceId], .ok)
    else ([], .err .nameUnavailable)

/-- Main phase of `WindowsWebAppResource.Create` (lines 199-306): decode,
existence check (AlreadyExists on presence), service-plan resolution,
availability-name construction, then `createRest`. -/
def createMainPhase (m : CreateInputs) (env : CreateEnv) : List Call × Outcome :=
  match env.decode with
  | .error _ => ([], .err .decodeErr)
  | .ok _ =>
  match env.existing with
  | .failed => ([.getSite], .err .presence)
  | .ok _ => ([.getSite], .requiresImport)
  | .notFound =>
  match env.planIdParse with
  | none => ([.getSite], .err .planIdParse)
  | some pid =>
  match env.planGet with
  | .error _ => ([.getSite, .getServicePlan], .err .planRead)
  | .ok plan =>
  match availabilityName m pid plan env with
  | (cs, none) => ([.getSite, .getServicePlan] ++ cs, .panics)
  | (cs, some (nm, fq)) =>
    ([.getSite, .getServicePlan] ++ cs ++ [.checkNameAvailability nm fq] ++ (createRest env).1,
     (createRest env).2)

/-- `WindowsWebAppResource.Create` (lines 197-357): the main phase followed,
when it succeeds, by the sub-resource phase. -/
def createDriver (m : CreateInputs) (env : CreateEnv) : List Call × Outcome :=
  let main := createMainPhase m env
  match main.2 with
  | .ok => (main.1 ++ (createSubPhase env).1, (createSubPhase env).2)
  | o => (main.1, o)

/-- The changed-field set the plugin host reports to the Update driver
(`metadata.ResourceData.HasChange`, lines 612-653). -/
structure Changed where
  appSettings : Bool
  connectionString : Bool
  authSettings : Bool
  backup : Bool
  logs : Bool
  storageAccount : Bool
  deriving DecidableEq, Repr

/-- Oracle environment for `WindowsWebAppResource.Update` (lines 557-663).
`expAppSettings` models the pointer returned by `helpers.ExpandAppSettings`
(dereferenced unguarded at line 614); `expBackupProps` models the
`BackupRequestProperties` field tested at line 635. -/
structure UpdateEnv where
  idParse : Option WebAppId
  decode : Except Unit Unit
  expandSiteConfig : Except Unit (Option String)
  createOrUpdate : Except Unit Unit
  updateWait : Except Unit Unit
  updateMetadata : Except Unit Unit
  changed : Changed
  expAppSettings : Option Unit
  expBackupProps : Option Unit
  updAppSettings : Except Unit Unit
  updConnStr : Except Unit Unit
  updAuth : Except Unit Unit
  updBackupDelete : Except Unit Unit
  updBackupUpdate : Except Unit Unit
  updLogs : Except Unit Unit
  updStorage : Except Unit Unit
  deriving DecidableEq, Repr

/-- A changed-guarded sub-resource update step of the Update driver: skipped
when the field did not change, fatal on call error, otherwise records the
call and continues. -/
def changedStep (flag : Bool) (c : Call) (r : Except Unit Unit) (e : ErrKind)
    (rest : List Call × Outcome) : List Call × Outcome :=
  if flag then
    match r with
    | .error _ => ([c], .err e)
    | .ok _ => (c :: rest.1, rest.2)
  else rest

/-- Update sub-resource phase, stage 6: storage accounts (lines 653-658). -/
def uStage6 (env : UpdateEnv) : List Call × Outcome :=
  changedStep env.changed.storageAccount .updateAzureStorageAccounts env.updStorage .updStorage ([], .ok)

/-- Update sub-resource phase, stage 5: diagnostic logs (lines 646-651). -/
def uStage5 (env : UpdateEnv) : List Call × Outcome :=
  changedStep env.changed.logs .updateDiagnosticLogsConfig env.updLogs .updLogs (uStage6 env)

/-- Update sub-resource phase, stage 4: backup (lines 633-644) — when the
expanded backup configuration has nil properties the driver deletes the
backup configuration, otherwise it updates it. -/
def uStage4 (env : UpdateEnv) : List Call × Outcome :=
  if env.changed.backup then
    match env.expBackupProps with
    | none =>
      match env.updBackupDelete with
      | .error _ => ([.deleteBackupConfiguration], .err .updBackupDelete)
      | .ok _ => (.deleteBackupConfiguration :: (uStage5 env).1, (uStage5 env).2)
    | some _ =>
      match env.updBackupUpdate with
      | .error _ => ([.updateBackupConfiguration], .err .updBackupUpdate)
      | .ok _ => (.updateBackupConfiguration :: (uStage5 env).1, (uStage5 env).2)
  else uStage5 env

/-- Update sub-resource phase, stage 3: auth settings (lines 626-631). -/
def uStage3 (env : UpdateEnv) : List Call × Outcome :=
  changedStep env.changed.authSettings .updateAuthSettings env.updAuth .updAuth (uStage4 env)

/-- Update sub-resource phase, stage 2: connection strings (lines 619-624). -/
def uStage2 (env : UpdateEnv) : List Call × Outcome :=
  changedStep env.changed.connectionString .updateConnectionStrings env.updConnStr .updConnStr (uStage3 env)

/-- Update sub-resource phase (lines 611-658), starting with app settings
(lines 612-617): the source dereferences the `ExpandAppSettings` result with
no nil guard (line 614), modelled as a panic when it is `none`. -/
def updateSubPhase (env : UpdateEnv) : List Call × Outcome :=
  if env.changed.appSettings then
    match env.expAppSettings with
    | none => ([], .panics)
    | some _ =>
      match env.updAppSettings with
      | .error _ => ([.updateApplicationSettings], .err .updAppSettings)
      | .ok _ => (.updateApplicationSettings :: (uStage2 env).1, (uStage2 env).2)
  else uStage2 env

/-- `WindowsWebAppResource.Update` (lines 557-663): ID parse, decode,
site-config expansion, primary create-or-update with wait, optional
current-stack metadata call, then the changed-guarded sub-resource phase. -/
def updateDriver (env : UpdateEnv) : List Call × Outcome :=
  match env.idParse with
  | none => ([], .err .updIdParse)
  | some _ =>
  match env.decode with
  | .error _ => ([], .err .updDecode)
  | .ok _ =>
  match env.expandSiteConfig with
  | .error _ => ([], .err .updExpandSiteConfig)
  | .ok stack =>
  match env.createOrUpdate with
  | .error _ => ([.createOrUpdate], .err .updPrimary)
  | .ok _ =>
  match env.updateWait with
  | .error _ => ([.createOrUpdate], .err .updWait)
  | .ok _ =>
    let sub := updateSubPhase env
    match stack with
    | some s =>
      if s = "" then (.createOrUpdate :: sub.1, sub.2)
      else
        match env.updateMetadata with
        | .error _ => ([.createOrUpdate, .updateMetadata], .err .updMetadata)
        | .ok _ => (.createOrUpdate :: .updateMetadata :: sub.1, sub.2)
    | none => (.createOrUpdate :: sub.1, sub.2)

/-! ### Helper predicates and reference definitions -/

/-- Whether a call is the app-settings update or the logs-configuration
update. -/
def isSettingsOrLogs : Call → Bool
  | .updateApplicationSettings => true
  | .updateDiagnosticLogsConfig => true
  | _ => false

/-- Whether a call is one of the sub-resource group update calls of the Update
driver: application settings, connection strings, auth settings, backup
update, backup delete, logs, storage accounts. -/
def isSubResourceCall : Call → Bool
  | .updateApplicationSettings => true
  | .updateConnectionStrings => true
  | .updateAuthSettings => true
  | .updateBackupConfiguration => true
  | .deleteBackupConfiguration => true
  | .updateDiagnosticLogsConfig => true
  | .updateAzureStorageAccounts => true
  | _ => false

/-- Whether a call is a name-availability check. -/
def isCheckName : Call → Bool
  | .checkNameAvailability _ _ => true
  | _ => false

/-- All auxiliary reads of the Windows Read driver succeed (the backup read
being allowed to report NotFound). -/
def auxOk (env : ReadEnv) : Prop :=
  env.getConfiguration = .ok () ∧ env.getAuthSettings = .ok () ∧
  env.getBackup ≠ .failed ∧ env.getLogs = .ok () ∧
  env.listAppSettings = .ok () ∧ env.listStorage = .ok () ∧
  env.listConnStr = .ok () ∧ env.listCreds = .ok () ∧
  env.waitCreds = .ok () ∧ env.credsResult = .ok () ∧
  ∃ md, env.listMetadata = .ok md

/-- All auxiliary reads of the Linux data source Read succeed (the backup read
being allowed to report NotFound). -/
def linuxAuxOk (env : LinuxEnv) : Prop :=
  env.getConfiguration = .ok () ∧ env.getAuthSettings = .ok () ∧
  env.getBackup ≠ .failed ∧ env.getLogs = .ok () ∧
  env.listAppSettings = .ok () ∧ env.listStorage = .ok () ∧
  env.listConnStr = .ok () ∧ env.listCreds = .ok () ∧
  env.waitCreds = .ok () ∧ env.credsResult = .ok ()

/-- Reference recursion for the Create sub-resource phase, written from the
claim's words: the groups are applied sequentially in the given order, a
group is skipped when its expanded representation is empty, and the first
failing update call aborts the remaining groups with an error, the calls
already issued staying issued. -/
def specSeqApply : List (Option Unit × Except Unit Unit × Call × ErrKind) → List Call × Outcome
  | [] => ([], .ok)
  | (g, r, c, e) :: rest =>
    match g with
    | none => specSeqApply rest
    | some _ =>
      match r with
      | .error _ => ([c], .err e)
      | .ok _ => (c :: (specSeqApply rest).1, (specSeqApply rest).2)

/-- The six sub-resource groups of the Create driver in source order. -/
def createGroups (env : CreateEnv) : List (Option Unit × Except Unit Unit × Call × ErrKind) :=
  [ (env.exp.appSettings, env.updAppSettings, .updateApplicationSettings, .setAppSettings),
    (env.exp.authProps, env.updAuth, .updateAuthSettings, .setAuth),
    (env.exp.logsProps, env.updLogs, .updateDiagnosticLogsConfig, .setLogs),
    (env.exp.backupProps, env.updBackup, .updateBackupConfiguration, .setBackup),
    (env.exp.storageProps, env.updStorage, .updateAzureStorageAccounts, .setStorage),
    (env.exp.connStrProps, env.updConnStr, .updateConnectionStrings, .setConnStr) ]

/-- Whether a call is the site delete call. -/
def isDeleteCall : Call → Bool
  | .deleteSite _ _ => true
  | _ => false

/-- The Update driver's main phase reaches the sub-resource phase through the
optional metadata call: either no current stack was extracted, or it is empty,
or the metadata update call succeeds. -/
def metaPass (env : UpdateEnv) (stack : Option String) : Prop :=
  match stack with
  | none => True
  | some s => s = "" ∨ env.updateMetadata = .ok ()

/-! ### Concrete environments for witnesses and counterexamples -/

def wid0 : WebAppId := ⟨"sub1", "rg1", "app1"⟩

def mC0 : CreateInputs := ⟨"app1", "rg1"⟩

/-- A Create environment in which every external call succeeds, the plan is
not on an isolated environment, and every expansion is empty. -/
def okCreateEnv : CreateEnv :=
  { decode := .ok (), existing := .notFound, planIdParse := some ⟨"rg1", "plan1"⟩,
    planGet := .ok ⟨none⟩, aseIdParse := none, aseGet := .ok ⟨none⟩,
    checkName := .ok (true, ""), expandSiteConfig := .ok none,
    createOrUpdate := .ok (), createWait := .ok (), updateMetadata := .ok (),
    exp := ⟨none, none, none, none, none, none⟩,
    updAppSettings := .ok (), updAuth := .ok (), updLogs := .ok (),
    updBackup := .ok (), updStorage := .ok (), updConnStr := .ok () }

def envImport7 : CreateEnv := { okCreateEnv with existing := .ok () }

/-- A Create environment whose plan is hosted on an isolated environment and
whose ASE read fails. -/
def envAse1 : CreateEnv :=
  { okCreateEnv with
    planIdParse := some ⟨"rg1", "myplan"⟩,
    planGet := .ok ⟨some ⟨some "aseid"⟩⟩,
    aseIdParse := some ⟨"rg2", "myase"⟩,
    aseGet := .error () }

def envSub6 : CreateEnv := { okCreateEnv with exp := ⟨some (), none, some (), none, none, none⟩ }

def props0 : SiteProps :=
  ⟨some "plan-id", some true, some false, "Required", some true, some false,
   some "cdvid", some "app1.azurewebsites.net", some "1.2.3.4,5.6.7.8",
   some "1.2.3.4,5.6.7.8,9.9.9.9"⟩

def site0 : Site := ⟨some "app", some "West Europe", some props0⟩

def okReadEnv : ReadEnv :=
  ⟨some wid0, .ok site0, .ok (), .ok (), .notFound, .ok (), .ok (), .ok (),
   .ok (), .ok (), .ok (), .ok (), .ok ⟨[("CURRENT_STACK", "dotnet")]⟩⟩

def goneReadEnv : ReadEnv := { okReadEnv with getSite := .notFound }

def okLinuxEnv : LinuxEnv :=
  ⟨.ok site0, .ok (), .ok (), .notFound, .ok (), .ok (), .ok (), .ok (),
   .ok (), .ok (), .ok ()⟩

def nfLinuxEnv : LinuxEnv := { okLinuxEnv with getSite := .notFound }

def props10 : SiteProps := { props0 with enabled := none }

def site10 : Site := ⟨some "app", some "West Europe", some props10⟩

def derefLinuxEnv : LinuxEnv := { okLinuxEnv with getSite := .ok site10 }

/-- An Update environment in which every external call succeeds and no field
changed. -/
def okUpdateEnv : UpdateEnv :=
  { idParse := some wid0, decode := .ok (), expandSiteConfig := .ok none,
    createOrUpdate := .ok (), updateWait := .ok (), updateMetadata := .ok (),
    changed := ⟨false, false, false, false, false, false⟩,
    expAppSettings := some (), expBackupProps := none,
    updAppSettings := .ok (), updConnStr := .ok (), updAuth := .ok (),
    updBackupDelete := .ok (), updBackupUpdate := .ok (),
    updLogs := .ok (), updStorage := .ok () }

def envU2 : UpdateEnv := { okUpdateEnv with changed := ⟨true, false, false, false, true, false⟩ }

def envU3 : UpdateEnv := { okUpdateEnv with changed := ⟨true, false, false, false, false, false⟩ }

def envU4 : UpdateEnv := { okUpdateEnv with changed := ⟨false, false, false, true, false, false⟩ }

def delEnv8 : DeleteEnv := ⟨some wid0, .ok ()⟩

/-! ### Helper lemmas -/

lemma rstep_error {σ : Type} (u : Unit) (c : Call) (e : ErrKind) (rest : ReadResult σ) :
    rstep (σ := σ) (.error u) c e rest = ⟨[c], .err e, none⟩ := rfl

lemma rstep_ok {σ : Type} (u : Unit) (c : Call) (e : ErrKind) (rest : ReadResult σ) :
    rstep (σ := σ) (.ok u) c e rest = ⟨c :: rest.calls, rest.out, rest.state⟩ := rfl

lemma rstep_out_ok_iff {σ : Type} (r : Except Unit Unit) (c : Call) (e : ErrKind)
    (rest : ReadResult σ) :
    (rstep r c e rest).out = .ok ↔ (r = .ok () ∧ rest.out = .ok) := by
  cases r with
  | error u => cases u; simp [rstep]
  | ok u => cases u; simp [rstep]

lemma bstep_out_ok_iff {σ : Type} (r : GetResult Unit) (c : Call) (e : ErrKind)
    (rest : ReadResult σ) :
    (bstep r c e rest).out = .ok ↔ (r ≠ .failed ∧ rest.out = .ok) := by
  cases r with
  | ok u => cases u; simp [bstep]
  | notFound => simp [bstep]
  | failed => simp [bstep]

lemma wTail_out_ok_iff (wid : WebAppId) (s : Site) (p : SiteProps) (env : ReadEnv) :
    (wTail wid s p env).out = .ok ↔ ∃ md, env.listMetadata = .ok md := by
  cases h : env.listMetadata <;> simp [wTail, h]

lemma wAux_out_ok_iff (wid : WebAppId) (s : Site) (p : SiteProps) (env : ReadEnv) :
    (wAux wid s p env).out = .ok ↔ auxOk env := by
  unfold wAux auxOk
  simp only [rstep_out_ok_iff, bstep_out_ok_iff, wTail_out_ok_iff]

lemma out_cases_rstep {σ : Type} (r : Except Unit Unit) (c : Call) (e : ErrKind)
    (rest : ReadResult σ)
    (h : rest.out = .ok ∨ ∃ e', rest.out = .err e') :
    (rstep r c e rest).out = .ok ∨ ∃ e', (rstep r c e rest).out = .err e' := by
  cases r with
  | error u => exact Or.inr ⟨e, rfl⟩
  | ok u => simpa [rstep] using h

lemma out_cases_bstep {σ : Type} (r : GetResult Unit) (c : Call) (e : ErrKind)
    (rest : ReadResult σ)
    (h : rest.out = .ok ∨ ∃ e', rest.out = .err e') :
    (bstep r c e rest).out = .ok ∨ ∃ e', (bstep r c e rest).out = .err e' := by
  cases r with
  | failed => exact Or.inr ⟨e, rfl⟩
  | ok u => simpa [bstep] using h
  | notFound => simpa [bstep] using h

lemma out_cases_wTail (wid : WebAppId) (s : Site) (p : SiteProps) (env : ReadEnv) :
    (wTail wid s p env).out = .ok ∨ ∃ e', (wTail wid s p env).out = .err e' := by
  cases h : env.listMetadata <;> simp [wTail, h]

lemma out_cases_wAux (wid : WebAppId) (s : Site) (p : SiteProps) (env : ReadEnv) :
    (wAux wid s p env).out = .ok ∨ ∃ e', (wAux wid s p env).out = .err e' := by
  unfold wAux
  apply out_cases_rstep; apply out_cases_rstep; apply out_cases_bstep
  apply out_cases_rstep; apply out_cases_rstep; apply out_cases_rstep
  apply out_cases_rstep; apply out_cases_rstep; apply out_cases_rstep
  apply out_cases_rstep; exact out_cases_wTail wid s p env

/-- The Windows Read driver never dereferences an unguarded nil pointer: every
pointer consumed by its state merge is behind a nil guard (lines 445-524). -/
lemma windowsRead_no_panic (env : ReadEnv) : (windowsRead env).out ≠ .panics := by
  unfold windowsRead
  cases hid : env.idParse with
  | none => simp
  | some wid =>
    cases hg : env.getSite with
    | notFound => simp
    | failed => simp
    | ok s =>
      cases hp : s.props with
      | none => simp [hp]
      | some p =>
        rcases out_cases_wAux wid s p env with h | ⟨e', h⟩ <;> simp [hp, h]

lemma specSeqApply_cons (g : Option Unit) (r : Except Unit Unit) (c : Call) (e : ErrKind)
    (rest : List (Option Unit × Except Unit Unit × Call × ErrKind)) :
    specSeqApply ((g, r, c, e) :: rest) = guardedStep g c r e (specSeqApply rest) := by
  cases g <;> cases r <;> rfl

lemma createSubPhase_eq_spec (env : CreateEnv) :
    createSubPhase env = specSeqApply (createGroups env) := by
  rw [createGroups, specSeqApply_cons, specSeqApply_cons, specSeqApply_cons,
      specSeqApply_cons, specSeqApply_cons, specSeqApply_cons]
  rfl

lemma specSeqApply_sublist (l : List (Option Unit × Except Unit Unit × Call × ErrKind)) :
    List.Sublist (specSeqApply l).1 (l.map fun g => g.2.2.1) := by
  induction l with
  | nil => simp [specSeqApply]
  | cons hd tl ih =>
    obtain ⟨g, r, c, e⟩ := hd
    cases g with
    | none => simpa [specSeqApply] using ih.cons c
    | some u =>
      cases r with
      | error u2 =>
        simp only [specSeqApply, List.map_cons]
        exact List.cons_sublist_cons.mpr (List.nil_sublist _)
      | ok u2 =>
        simp only [specSeqApply, List.map_cons]
        exact List.cons_sublist_cons.mpr ih

lemma changedStep_filter_skip (flag : Bool) (c : Call) (r : Except Unit Unit) (e : ErrKind)
    (rest : List Call × Outcome) {l : List Call}
    (hc : isSettingsOrLogs c = false)
    (h : List.Sublist (rest.1.filter isSettingsOrLogs) l) :
    List.Sublist (((changedStep flag c r e rest).1).filter isSettingsOrLogs) l := by
  cases flag with
  | false => simpa [changedStep] using h
  | true =>
    cases r with
    | error u => simp [changedStep, hc]
    | ok u => simpa [changedStep, hc] using h

lemma changedStep_filter_keep (flag : Bool) (c : Call) (r : Except Unit Unit) (e : ErrKind)
    (rest : List Call × Outcome) {l : List Call}
    (hc : isSettingsOrLogs c = true)
    (h : List.Sublist (rest.1.filter isSettingsOrLogs) l) :
    List.Sublist (((changedStep flag c r e rest).1).filter isSettingsOrLogs) (c :: l) := by
  cases flag with
  | false => simpa [changedStep] using h.cons c
  | true =>
    cases r with
    | error u =>
      show List.Sublist (List.filter isSettingsOrLogs [c]) (c :: l)
      rw [show List.filter isSettingsOrLogs [c] = [c] from by simp [hc]]
      exact List.cons_sublist_cons.mpr (List.nil_sublist l)
    | ok u =>
      show List.Sublist (List.filter isSettingsOrLogs (c :: rest.1)) (c :: l)
      rw [List.filter_cons_of_pos hc]
      exact List.cons_sublist_cons.mpr h

lemma uStage4_filter (env : UpdateEnv) {l : List Call}
    (h : List.Sublist ((uStage5 env).1.filter isSettingsOrLogs) l) :
    List.Sublist ((uStage4 env).1.filter isSettingsOrLogs) l := by
  cases hb : env.changed.backup with
  | false => simpa [uStage4, hb] using h
  | true =>
    cases hbp : env.expBackupProps with
    | none =>
      cases hd : env.updBackupDelete with
      | error u => simp [uStage4, hb, hbp, hd, isSettingsOrLogs]
      | ok u => simpa [uStage4, hb, hbp, hd, isSettingsOrLogs] using h
    | some u =>
      cases hu : env.updBackupUpdate with
      | error u2 => simp [uStage4, hb, hbp, hu, isSettingsOrLogs]
      | ok u2 => simpa [uStage4, hb, hbp, hu, isSettingsOrLogs] using h

lemma updateSubPhase_filter (env : UpdateEnv) :
    List.Sublist ((updateSubPhase env).1.filter isSettingsOrLogs)
      [Call.updateApplicationSettings, Call.updateDiagnosticLogsConfig] := by
  have h6 : List.Sublist ((uStage6 env).1.filter isSettingsOrLogs) [] := by
    simp only [uStage6]
    exact changedStep_filter_skip _ _ _ _ _ rfl (by simp)
  have h5 : List.Sublist ((uStage5 env).1.filter isSettingsOrLogs)
      [Call.updateDiagnosticLogsConfig] := by
    simp only [uStage5]
    exact changedStep_filter_keep _ _ _ _ _ rfl h6
  have h4 := uStage4_filter env h5
  have h3 : List.Sublist ((uStage3 env).1.filter isSettingsOrLogs)
      [Call.updateDiagnosticLogsConfig] := by
    simp only [uStage3]
    exact changedStep_filter_skip _ _ _ _ _ rfl h4
  have h2 : List.Sublist ((uStage2 env).1.filter isSettingsOrLogs)
      [Call.updateDiagnosticLogsConfig] := by
    simp only [uStage2]
    exact changedStep_filter_skip _ _ _ _ _ rfl h3
  have hsub : List.Sublist [Call.updateDiagnosticLogsConfig]
      [Call.updateApplicationSettings, Call.updateDiagnosticLogsConfig] := by decide
  cases ha : env.changed.appSettings with
  | false => simpa [updateSubPhase, ha] using h2.trans hsub
  | true =>
    cases hx : env.expAppSettings with
    | none => simp [updateSubPhase, ha, hx]
    | some u =>
      cases hr : env.updAppSettings with
      | error u2 => simp [updateSubPhase, ha, hx, hr, isSettingsOrLogs]
      | ok u2 =>
        have hred : (updateSubPhase env).1 = Call.updateApplicationSettings :: (uStage2 env).1 := by
          simp [updateSubPhase, ha, hx, hr]
        rw [hred, List.filter_cons_of_pos rfl]
        exact List.cons_sublist_cons.mpr h2

lemma mem_main_mem_driver (m : CreateInputs) (env : CreateEnv) (c : Call)
    (h : c ∈ (createMainPhase m env).1) : c ∈ (createDriver m env).1 := by
  unfold createDriver
  cases ho : (createMainPhase m env).2 <;> simp [ho, List.mem_append, h]

/-- When the main phase of the Update driver passes, the trace is a prefix of
non-sub-resource calls followed by the sub-resource phase. -/
lemma updateDriver_pass (env : UpdateEnv) (wid : WebAppId) (stack : Option String)
    (h1 : env.idParse = some wid) (h2 : env.decode = .ok ())
    (h3 : env.expandSiteConfig = .ok stack) (h4 : env.createOrUpdate = .ok ())
    (h5 : env.updateWait = .ok ()) (h6 : metaPass env stack) :
    ∃ pre, updateDriver env = (pre ++ (updateSubPhase env).1, (updateSubPhase env).2) ∧
      pre.filter isSubResourceCall = [] := by
  cases stack with
  | none =>
    exact ⟨[.createOrUpdate], by simp [updateDriver, h1, h2, h3, h4, h5], by decide⟩
  | some s =>
    have h6' : s = "" ∨ env.updateMetadata = .ok () := h6
    by_cases hs : s = ""
    · exact ⟨[.createOrUpdate], by simp [updateDriver, h1, h2, h3, h4, h5, hs], by decide⟩
    · have hm : env.updateMetadata = .ok () := h6'.resolve_left hs
      exact ⟨[.createOrUpdate, .updateMetadata],
        by simp [updateDriver, h1, h2, h3, h4, h5, hs, hm], by decide⟩

/-- Membership of a distinct call is unchanged by a changed-guarded step whose
own call succeeds when taken. -/
lemma mem_changedStep_iff (flag : Bool) (c0 : Call) (r : Except Unit Unit) (e : ErrKind)
    (rest : List Call × Outcome) (c : Call) (hne : c ≠ c0)
    (hpass : flag = true → r = .ok ()) :
    (c ∈ (changedStep flag c0 r e rest).1 ↔ c ∈ rest.1) := by
  cases flag with
  | false => simp [changedStep]
  | true =>
    rw [hpass rfl]
    simp [changedStep, List.mem_cons, hne]

/-- Stages 5 and 6 of the Update sub-resource phase issue no backup call. -/
lemma uStage5_no_backup (env : UpdateEnv) :
    Call.updateBackupConfiguration ∉ (uStage5 env).1 ∧
    Call.deleteBackupConfiguration ∉ (uStage5 env).1 := by
  cases hl : env.changed.logs <;> cases hr : env.updLogs <;>
    cases hst : env.changed.storageAccount <;> cases hrs : env.updStorage <;>
    simp [uStage5, uStage6, changedStep, hl, hr, hst, hrs]

/-! ### Claims -/

/-- C7: when the initial existence check of Create finds a resource with the
same composite ID already present, Create fails with the requires-import
(AlreadyExists) error before issuing any name-availability check or create
call — its trace stops at the existence check — and Create never proceeds or
succeeds unless the existence check reported NotFound. -/
theorem c7_requires_import (m : CreateInputs) (env : CreateEnv)
    (hdec : env.decode = .ok ()) (h : env.existing ≠ .notFound) :
    (createDriver m env).1 = [Call.getSite] ∧
    ((createDriver m env).2 = .requiresImport ↔ env.existing = .ok ()) ∧
    (createDriver m env).2 ≠ .ok := by
  cases he : env.existing with
  | ok u => cases u; simp [createDriver, createMainPhase, hdec, he]
  | notFound => exact absurd he h
  | failed => simp [createDriver, createMainPhase, hdec, he]

/-- C7 witness: a concrete Create whose existence check finds the resource
fails with the requires-import error. -/
theorem c7_witness : (createDriver mC0 envImport7).2 = .requiresImport :=
  ((c7_requires_import mC0 envImport7 rfl (by decide)).2.1).mpr rfl

/-- C8: for every Delete invocation with a parseable ID, exactly one delete
call is issued, with delete-metrics fixed to true and delete-empty-server-farm
fixed to false; an error from that call is returned wrapped (no retry), and on
success Delete returns no error. -/
theorem c8_delete_single_call (env : DeleteEnv) (wid : WebAppId)
    (h : env.idParse = some wid) :
    (deleteDriver env).1.filter isDeleteCall = [Call.deleteSite true false] ∧
    ((deleteDriver env).2 = .ok ↔ env.deleteCall = .ok ()) ∧
    (∀ u, env.deleteCall = .error u → (deleteDriver env).2 = .err .deleteCall) := by
  cases hd : env.deleteCall with
  | error u => cases u; simp [deleteDriver, h, hd, isDeleteCall]
  | ok u => cases u; simp [deleteDriver, h, hd, isDeleteCall]

/-- C8 witness: a concrete Delete issues the single fixed-option delete call. -/
theorem c8_witness :
    (deleteDriver delEnv8).1.filter isDeleteCall = [Call.deleteSite true false] :=
  (c8_delete_single_call delEnv8 wid0 rfl).1

/-- C9: the Linux Web App data source Read returns an error when the primary
get reports NotFound — it does not treat the absence as resource-gone state
removal — unlike the Windows resource Read, which marks the state gone and
returns no error. -/
theorem c9_ds_not_found_error (envL : LinuxEnv) (envW : ReadEnv) (wid : WebAppId)
    (hL : envL.getSite = .notFound) (hW : envW.idParse = some wid)
    (hW2 : envW.getSite = .notFound) :
    (linuxRead envL).out = .err .dsNotFound ∧ (linuxRead envL).out ≠ .gone ∧
    windowsRead envW = ⟨[Call.getSite], .gone, none⟩ := by
  refine ⟨?_, ?_, ?_⟩ <;> simp [linuxRead, windowsRead, hL, hW, hW2]

/-- C9 witness: a concrete Linux data source Read whose primary get reports
NotFound returns the not-found error. -/
theorem c9_witness : (linuxRead nfLinuxEnv).out = .err .dsNotFound :=
  (c9_ds_not_found_error nfLinuxEnv goneReadEnv wid0 rfl rfl rfl).1

/-- C5: for every Windows Read invocation with a parseable ID — a NotFound on
the primary get marks the resource gone with no error; the read succeeds
exactly when the primary get returns a site with properties and every
auxiliary read succeeds, the backup read being allowed to report NotFound;
and every other outcome is a wrapped error. -/
theorem c5_read_error_handling (env : ReadEnv) (wid : WebAppId)
    (hid : env.idParse = some wid) :
    ((windowsRead env).out = .gone ↔ env.getSite = .notFound) ∧
    ((windowsRead env).out = .ok ↔
       ((∃ s p, env.getSite = .ok s ∧ s.props = some p) ∧ auxOk env)) ∧
    ((windowsRead env).out ≠ .gone → (windowsRead env).out ≠ .ok →
       ∃ e, (windowsRead env).out = .err e) := by
  cases hg : env.getSite with
  | notFound =>
    refine ⟨by simp [windowsRead, hid, hg], by simp [windowsRead, hid, hg], ?_⟩
    intro h1 _
    exact absurd (by simp [windowsRead, hid, hg]) h1
  | failed =>
    refine ⟨by simp [windowsRead, hid, hg], by simp [windowsRead, hid, hg], ?_⟩
    intro _ _
    exact ⟨.readSite, by simp [windowsRead, hid, hg]⟩
  | ok s =>
    cases hp : s.props with
    | none =>
      refine ⟨by simp [windowsRead, hid, hg, hp], by simp [windowsRead, hid, hg, hp], ?_⟩
      intro _ _
      exact ⟨.nilProps, by simp [windowsRead, hid, hg, hp]⟩
    | some p =>
      have hout : (windowsRead env).out = (wAux wid s p env).out := by
        simp [windowsRead, hid, hg, hp]
      refine ⟨?_, ?_, ?_⟩
      · rw [hout]
        rcases out_cases_wAux wid s p env with h | ⟨e', h⟩ <;> simp [h, hg]
      · rw [hout, wAux_out_ok_iff]
        constructor
        · intro ha
          exact ⟨⟨s, p, rfl, hp⟩, ha⟩
        · rintro ⟨_, ha⟩
          exact ha
      · rw [hout]
        intro _ h2
        rcases out_cases_wAux wid s p env with h | ⟨e', h⟩
        · exact absurd h h2
        · exact ⟨e', h⟩

/-- C5 witness: a concrete Windows Read with all reads succeeding is not
marked gone. -/
theorem c5_witness :
    ((windowsRead okReadEnv).out = .gone ↔ okReadEnv.getSite = .notFound) :=
  (c5_read_error_handling okReadEnv wid0 rfl).1

/-- C10: whenever the Linux data source Read reaches its state merge with a
non-nil `SiteProperties`, a nil `ClientAffinityEnabled`, `ClientCertEnabled`,
`Enabled` or `HTTPSOnly` pointer is dereferenced unguarded and panics; the
read completes without panic exactly when all four pointers are non-nil.  The
Windows resource Read guards each such pointer and never panics. -/
theorem c10_linux_unguarded_deref (env : LinuxEnv) (s : Site) (p : SiteProps)
    (hg : env.getSite = .ok s) (hp : s.props = some p) (haux : linuxAuxOk env) :
    ((p.clientAffinityEnabled = none ∨ p.clientCertEnabled = none ∨
        p.enabled = none ∨ p.httpsOnly = none) → (linuxRead env).out = .panics) ∧
    (((∃ a, p.clientAffinityEnabled = some a) ∧ (∃ b, p.clientCertEnabled = some b) ∧
        (∃ c, p.enabled = some c) ∧ (∃ d, p.httpsOnly = some d)) →
      (linuxRead env).out = .ok) ∧
    (∀ envW : ReadEnv, (windowsRead envW).out ≠ .panics) := by
  obtain ⟨a1, a2, a3, a4, a5, a6, a7, a8, a9, a10⟩ := haux
  have hout : (linuxRead env).out = (lTail s).out := by
    cases hb : env.getBackup with
    | failed => exact absurd hb a3
    | ok u =>
      cases u
      simp [linuxRead, lAux, hg, a1, a2, hb, a4, a5, a6, a7, a8, a9, a10, rstep, bstep]
    | notFound =>
      simp [linuxRead, lAux, hg, a1, a2, hb, a4, a5, a6, a7, a8, a9, a10, rstep, bstep]
  refine ⟨?_, ?_, fun envW => windowsRead_no_panic envW⟩
  · intro hnone
    have hm : linuxMerge s = none := by
      cases h1 : p.clientAffinityEnabled with
      | none => simp [linuxMerge, hp, h1]
      | some a =>
        cases h2 : p.clientCertEnabled with
        | none => simp [linuxMerge, hp, h1, h2]
        | some b =>
          cases h3 : p.enabled with
          | none => simp [linuxMerge, hp, h1, h2, h3]
          | some c =>
            cases h4 : p.httpsOnly with
            | none => simp [linuxMerge, hp, h1, h2, h3, h4]
            | some d => rcases hnone with h | h | h | h <;> simp_all
    rw [hout]
    simp [lTail, hm]
  · rintro ⟨⟨a, ha⟩, ⟨b, hb2⟩, ⟨c, hc2⟩, ⟨d, hd2⟩⟩
    rw [hout]
    simp [lTail, linuxMerge, hp, ha, hb2, hc2, hd2]

/-- C10 witness: a concrete Linux data source Read whose `Enabled` pointer is
nil panics. -/
theorem c10_witness : (linuxRead derefLinuxEnv).out = .panics :=
  (c10_linux_unguarded_deref derefLinuxEnv site10 props10 rfl rfl
      ⟨rfl, rfl, by decide, rfl, rfl, rfl, rfl, rfl, rfl, rfl⟩).1
    (Or.inr (Or.inr (Or.inl rfl)))

/-- C2: in every Update invocation, among the app-settings and logs update
calls, the trace is a sublist of [settings, logs] — a logs-configuration
update is never issued before the app-settings update; and in a
representative invocation where both fields changed and the main phase
passes, the trace is exactly the primary update, the settings update, then
the logs update. -/
theorem c2_settings_before_logs (env : UpdateEnv) :
    List.Sublist ((updateDriver env).1.filter isSettingsOrLogs)
      [Call.updateApplicationSettings, Call.updateDiagnosticLogsConfig] ∧
    (∀ wid : WebAppId, env.idParse = some wid → env.decode = .ok () →
      env.expandSiteConfig = .ok none → env.createOrUpdate = .ok () →
      env.updateWait = .ok () →
      env.changed = ⟨true, false, false, false, true, false⟩ →
      env.expAppSettings = some () → env.updAppSettings = .ok () →
      (updateDriver env).1 =
        [Call.createOrUpdate, Call.updateApplicationSettings,
         Call.updateDiagnosticLogsConfig]) := by
  constructor
  · cases hi : env.idParse with
    | none => simp [updateDriver, hi]
    | some wid =>
      cases hd : env.decode with
      | error u => simp [updateDriver, hi, hd]
      | ok u =>
        cases hx : env.expandSiteConfig with
        | error u2 => simp [updateDriver, hi, hd, hx]
        | ok stack =>
          cases hcr : env.createOrUpdate with
          | error u2 => simp [updateDriver, hi, hd, hx, hcr, isSettingsOrLogs]
          | ok u2 =>
            cases hw : env.updateWait with
            | error u3 => simp [updateDriver, hi, hd, hx, hcr, hw, isSettingsOrLogs]
            | ok u3 =>
              have hmain := updateSubPhase_filter env
              cases stack with
              | none =>
                have hteq : updateDriver env =
                    (Call.createOrUpdate :: (updateSubPhase env).1, (updateSubPhase env).2) := by
                  simp [updateDriver, hi, hd, hx, hcr, hw]
                rw [hteq]
                simpa [isSettingsOrLogs] using hmain
              | some s =>
                by_cases hs : s = ""
                · have hteq : updateDriver env =
                      (Call.createOrUpdate :: (updateSubPhase env).1, (updateSubPhase env).2) := by
                    simp [updateDriver, hi, hd, hx, hcr, hw, hs]
                  rw [hteq]
                  simpa [isSettingsOrLogs] using hmain
                · cases hm : env.updateMetadata with
                  | error u4 =>
                    simp [updateDriver, hi, hd, hx, hcr, hw, hs, hm, isSettingsOrLogs]
                  | ok u4 =>
                    have hteq : updateDriver env =
                        (Call.createOrUpdate :: Call.updateMetadata :: (updateSubPhase env).1,
                         (updateSubPhase env).2) := by
                      simp [updateDriver, hi, hd, hx, hcr, hw, hs, hm]
                    rw [hteq]
                    simpa [isSettingsOrLogs] using hmain
  · intro wid h1 h2 h3 h4 h5 h6 h7 h8
    cases hl : env.updLogs with
    | error u =>
      simp [updateDriver, updateSubPhase, uStage2, uStage3, uStage4, uStage5, uStage6,
            changedStep, h1, h2, h3, h4, h5, h6, h7, h8, hl]
    | ok u =>
      simp [updateDriver, updateSubPhase, uStage2, uStage3, uStage4, uStage5, uStage6,
            changedStep, h1, h2, h3, h4, h5, h6, h7, h8, hl]

/-- C2 witness: a concrete Update with app settings and logs both changed
issues the settings update before the logs update. -/
theorem c2_witness :
    (updateDriver envU2).1 =
      [Call.createOrUpdate, Call.updateApplicationSettings,
       Call.updateDiagnosticLogsConfig] :=
  (c2_settings_before_logs envU2).2 wid0 rfl rfl rfl rfl rfl rfl rfl rfl

/-- C3: in every Update invocation whose main phase passes and in which only
the app_settings field changed, the only sub-resource group update call
issued is the application-settings update — no logs, backup, storage-account,
connection-string or auth-settings call. -/
theorem c3_only_app_settings (env : UpdateEnv) (wid : WebAppId) (stack : Option String)
    (h1 : env.idParse = some wid) (h2 : env.decode = .ok ())
    (h3 : env.expandSiteConfig = .ok stack) (h4 : env.createOrUpdate = .ok ())
    (h5 : env.updateWait = .ok ()) (h6 : metaPass env stack)
    (hch : env.changed = ⟨true, false, false, false, false, false⟩)
    (hexp : env.expAppSettings = some ()) :
    (updateDriver env).1.filter isSubResourceCall = [Call.updateApplicationSettings] := by
  obtain ⟨pre, heq, hpre⟩ := updateDriver_pass env wid stack h1 h2 h3 h4 h5 h6
  rw [heq]
  show (pre ++ (updateSubPhase env).1).filter isSubResourceCall = _
  rw [List.filter_append, hpre, List.nil_append]
  cases hr : env.updAppSettings with
  | error u =>
    simp [updateSubPhase, hch, hexp, hr, isSubResourceCall]
  | ok u =>
    simp [updateSubPhase, uStage2, uStage3, uStage4, uStage5, uStage6, changedStep,
          hch, hexp, hr, isSubResourceCall]

/-- C3 witness: a concrete Update with only app_settings changed issues
exactly the application-settings sub-resource call. -/
theorem c3_witness :
    (updateDriver envU3).1.filter isSubResourceCall = [Call.updateApplicationSettings] :=
  c3_only_app_settings envU3 wid0 none rfl rfl rfl rfl rfl True.intro rfl rfl

/-- C4: in every Update invocation whose main phase passes, whose earlier
sub-resource groups (app settings, connection strings, auth settings) succeed
when changed, and whose backup field changed: an empty expanded backup
configuration (nil properties) yields a delete-backup-configuration call and
no update-backup call, and a non-empty one yields an update-backup call and
no delete-backup call. -/
theorem c4_backup_branches (env : UpdateEnv) (wid : WebAppId) (stack : Option String)
    (h1 : env.idParse = some wid) (h2 : env.decode = .ok ())
    (h3 : env.expandSiteConfig = .ok stack) (h4 : env.createOrUpdate = .ok ())
    (h5 : env.updateWait = .ok ()) (h6 : metaPass env stack)
    (hs : env.changed.appSettings = true → env.expAppSettings = some () ∧ env.updAppSettings = .ok ())
    (hc : env.changed.connectionString = true → env.updConnStr = .ok ())
    (ha : env.changed.authSettings = true → env.updAuth = .ok ())
    (hb : env.changed.backup = true) :
    (env.expBackupProps = none →
       Call.deleteBackupConfiguration ∈ (updateDriver env).1 ∧
       Call.updateBackupConfiguration ∉ (updateDriver env).1) ∧
    (∀ u, env.expBackupProps = some u →
       Call.updateBackupConfiguration ∈ (updateDriver env).1 ∧
       Call.deleteBackupConfiguration ∉ (updateDriver env).1) := by
  obtain ⟨pre, heq, hpre⟩ := updateDriver_pass env wid stack h1 h2 h3 h4 h5 h6
  have hdrv : ∀ c : Call, isSubResourceCall c = true →
      (c ∈ (updateDriver env).1 ↔ c ∈ (updateSubPhase env).1) := by
    intro c hcp
    rw [heq]
    show c ∈ pre ++ (updateSubPhase env).1 ↔ _
    rw [List.mem_append]
    constructor
    · rintro (hmem | hmem)
      · have : c ∈ pre.filter isSubResourceCall := List.mem_filter.mpr ⟨hmem, hcp⟩
        rw [hpre] at this
        exact absurd this (List.not_mem_nil c)
      · exact hmem
    · exact Or.inr
  have e1 : ∀ c : Call, c ≠ Call.updateApplicationSettings →
      (c ∈ (updateSubPhase env).1 ↔ c ∈ (uStage2 env).1) := by
    intro c hne
    cases hA : env.changed.appSettings with
    | false => simp [updateSubPhase, hA]
    | true =>
      obtain ⟨hx, hr⟩ := hs hA
      simp [updateSubPhase, hA, hx, hr, List.mem_cons, hne]
  have e2 : ∀ c : Call, c ≠ Call.updateConnectionStrings →
      (c ∈ (uStage2 env).1 ↔ c ∈ (uStage3 env).1) := by
    intro c hne
    exact mem_changedStep_iff _ _ _ _ _ c hne hc
  have e3 : ∀ c : Call, c ≠ Call.updateAuthSettings →
      (c ∈ (uStage3 env).1 ↔ c ∈ (uStage4 env).1) := by
    intro c hne
    exact mem_changedStep_iff _ _ _ _ _ c hne ha
  have hupd : Call.updateBackupConfiguration ∈ (updateDriver env).1 ↔
      Call.updateBackupConfiguration ∈ (uStage4 env).1 :=
    ((hdrv Call.updateBackupConfiguration rfl).trans
        (e1 Call.updateBackupConfiguration (by decide))).trans
      ((e2 Call.updateBackupConfiguration (by decide)).trans
        (e3 Call.updateBackupConfiguration (by decide)))
  have hdel : Call.deleteBackupConfiguration ∈ (updateDriver env).1 ↔
      Call.deleteBackupConfiguration ∈ (uStage4 env).1 :=
    ((hdrv Call.deleteBackupConfiguration rfl).trans
        (e1 Call.deleteBackupConfiguration (by decide))).trans
      ((e2 Call.deleteBackupConfiguration (by decide)).trans
        (e3 Call.deleteBackupConfiguration (by decide)))
  obtain ⟨hnu, hnd⟩ := uStage5_no_backup env
  constructor
  · intro hbp
    rw [hdel, hupd]
    cases hd : env.updBackupDelete with
    | error u => simp [uStage4, hb, hbp, hd]
    | ok u => simp [uStage4, hb, hbp, hd, List.mem_cons, hnu, hnd]
  · intro u hbp
    rw [hdel, hupd]
    cases hd : env.updBackupUpdate with
    | error u2 => simp [uStage4, hb, hbp, hd]
    | ok u2 => simp [uStage4, hb, hbp, hd, List.mem_cons, hnu, hnd]

/-- C4 witness: a concrete Update with only the backup field changed and an
empty expanded backup configuration issues the delete-backup call. -/
theorem c4_witness : Call.deleteBackupConfiguration ∈ (updateDriver envU4).1 :=
  ((c4_backup_branches envU4 wid0 none rfl rfl rfl rfl rfl True.intro
      (by decide) (by decide) (by decide) rfl).1 rfl).1

/-- C6: when the Create main phase (create call, wait, optional current-stack
metadata call) succeeds, the driver appends exactly the sub-resource phase
described by the reference recursion `specSeqApply` over the six groups in the
order app settings, auth settings, logs, backup, storage accounts, connection
strings: each group is applied only if its expanded representation is
non-empty, and the first failure aborts the remaining groups, keeping the
calls already issued; the sub-resource trace is a sublist of the six calls in
that order. -/
theorem c6_create_subresource_order (m : CreateInputs) (env : CreateEnv)
    (h : (createMainPhase m env).2 = .ok) :
    createDriver m env =
      ((createMainPhase m env).1 ++ (specSeqApply (createGroups env)).1,
       (specSeqApply (createGroups env)).2) ∧
    List.Sublist (specSeqApply (createGroups env)).1
      [Call.updateApplicationSettings, Call.updateAuthSettings,
       Call.updateDiagnosticLogsConfig, Call.updateBackupConfiguration,
       Call.updateAzureStorageAccounts, Call.updateConnectionStrings] := by
  constructor
  · simp [createDriver, h, createSubPhase_eq_spec]
  · have hsub := specSeqApply_sublist (createGroups env)
    simpa [createGroups] using hsub

/-- C6 witness: a concrete Create with non-empty app-settings and logs
expansions applies them in order after the main phase. -/
theorem c6_witness :
    createDriver mC0 envSub6 =
      ((createMainPhase mC0 envSub6).1 ++ (specSeqApply (createGroups envSub6)).1,
       (specSeqApply (createGroups envSub6)).2) :=
  (c6_create_subresource_order mC0 envSub6 (by decide)).1

/-- C1 (amended): in a Create whose resolved plan is hosted on an isolated
environment (profile non-nil) and whose ASE ID, when present, parses, the
name-availability check is issued with an FQDN `<name>.<plan-name>.<suffix>`
and IsFqdn true; and when the environment read fails, the suffix used is
`<environment-name>.appserviceenvironment.net` — the environment name taken
from the parsed ASE ID, not the plan name — the failure is logged as a
warning and Create continues to the availability check. -/
theorem c1_ase_fqdn (m : CreateInputs) (env : CreateEnv) (pid : ServicePlanId)
    (plan : ServicePlanResp) (ase : AseRef) (aseId : AseId)
    (hdec : env.decode = .ok ()) (hex : env.existing = .notFound)
    (hpid : env.planIdParse = some pid) (hplan : env.planGet = .ok plan)
    (hase : plan.hostingEnvironmentProfile = some ase)
    (hparse : ase.id.isSome = true → env.aseIdParse = some aseId) :
    (∃ suffix, Call.checkNameAvailability
        (m.name ++ "." ++ pid.serverfarmName ++ "." ++ suffix) true
        ∈ (createDriver m env).1) ∧
    (ase.id.isSome = true → env.aseGet = .error () →
      Call.checkNameAvailability
          (m.name ++ "." ++ pid.serverfarmName ++ "." ++
            (aseId.hostingEnvironmentName ++ "." ++ "appserviceenvironment.net")) true
          ∈ (createDriver m env).1 ∧
      Call.warnAseRead ∈ (createDriver m env).1) := by
  cases hid : ase.id with
  | none =>
    refine ⟨⟨"appserviceenvironment.net", ?_⟩, ?_⟩
    · apply mem_main_mem_driver
      simp [createMainPhase, hdec, hex, hpid, hplan, availabilityName, hase, hid,
            List.mem_append]
    · intro hsome _
      simp [hid] at hsome
  | some aid =>
    have hpr : env.aseIdParse = some aseId := hparse (by rw [hid]; rfl)
    cases hget : env.aseGet with
    | error u =>
      cases u
      have hmem : Call.checkNameAvailability
          (m.name ++ "." ++ pid.serverfarmName ++ "." ++
            (aseId.hostingEnvironmentName ++ "." ++ "appserviceenvironment.net")) true
          ∈ (createMainPhase m env).1 := by
        simp [createMainPhase, hdec, hex, hpid, hplan, availabilityName, hase, hid,
              hpr, hget, List.mem_append]
      have hwarn : Call.warnAseRead ∈ (createMainPhase m env).1 := by
        simp [createMainPhase, hdec, hex, hpid, hplan, availabilityName, hase, hid,
              hpr, hget, List.mem_append]
      exact ⟨⟨aseId.hostingEnvironmentName ++ "." ++ "appserviceenvironment.net",
              mem_main_mem_driver _ _ _ hmem⟩,
             fun _ _ => ⟨mem_main_mem_driver _ _ _ hmem, mem_main_mem_driver _ _ _ hwarn⟩⟩
    | ok resp =>
      refine ⟨?_, ?_⟩
      · cases hprops : resp.appServiceEnvironment with
        | none =>
          refine ⟨aseId.hostingEnvironmentName ++ "." ++ "appserviceenvironment.net", ?_⟩
          apply mem_main_mem_driver
          simp [createMainPhase, hdec, hex, hpid, hplan, availabilityName, hase, hid,
                hpr, hget, hprops, List.mem_append]
        | some props =>
          cases hdns : props.dnsSuffix with
          | none =>
            refine ⟨aseId.hostingEnvironmentName ++ "." ++ "appserviceenvironment.net", ?_⟩
            apply mem_main_mem_driver
            simp [createMainPhase, hdec, hex, hpid, hplan, availabilityName, hase, hid,
                  hpr, hget, hprops, hdns, List.mem_append]
          | some str =>
            by_cases hstr : str = ""
            · refine ⟨aseId.hostingEnvironmentName ++ "." ++ "appserviceenvironment.net", ?_⟩
              apply mem_main_mem_driver
              simp [createMainPhase, hdec, hex, hpid, hplan, availabilityName, hase, hid,
                    hpr, hget, hprops, hdns, hstr, List.mem_append]
            · refine ⟨str, ?_⟩
              apply mem_main_mem_driver
              simp [createMainPhase, hdec, hex, hpid, hplan, availabilityName, hase, hid,
                    hpr, hget, hprops, hdns, hstr, List.mem_append]
      · intro _ habs
        exact Except.noConfusion habs

/-- C1 witness: a concrete isolated-environment Create whose ASE read fails
logs the warning and continues. -/
theorem c1_witness : Call.warnAseRead ∈ (createDriver mC0 envAse1).1 :=
  ((c1_ase_fqdn mC0 envAse1 ⟨"rg1", "myplan"⟩ ⟨some ⟨some "aseid"⟩⟩ ⟨some "aseid"⟩
      ⟨"rg2", "myase"⟩ rfl rfl rfl rfl rfl (fun _ => rfl)).2 rfl rfl).2

/-- C1 counterexample: in a concrete Create on an isolated environment whose
ASE read fails (plan name "myplan", environment name "myase"), the single
availability check issued uses the FQDN
`app1.myplan.myase.appserviceenvironment.net`, which differs from the FQDN
`app1.myplan.myplan.appserviceenvironment.net` that a default suffix of
`<plan-name>.appserviceenvironment.net` would produce. -/
theorem c1_counterexample :
    (createDriver mC0 envAse1).1.filter isCheckName =
      [Call.checkNameAvailability "app1.myplan.myase.appserviceenvironment.net" true] ∧
    ("app1.myplan.myase.appserviceenvironment.net" : String) ≠
      "app1.myplan.myplan.appserviceenvironment.net" := by
  decide

end AzureRM
